import Mathlib

/-!
Shallow embedding of the post-earnings drift analysis pipeline of
`src/main.py`: the event-to-bar aligner, the per-observation metric
computation, and the two aggregate statistics (Pearson correlation and
the same-direction percentage), together with proofs of the specified
properties.

Conventions of the embedding:
* Dates are natural numbers (days); `hist.index` is an ordered list of bars.
* Prices and percentages are exact rationals.  numpy float arithmetic on
  in-range data agrees with exact arithmetic for every concrete value used
  here; where the two differ (numpy float division by zero emits a
  RuntimeWarning and yields inf or nan, while Lean rationals define
  `q / 0 = 0`), only membership facts, never numeric values, are asserted
  at such inputs.
* Python `round(x, 2)` is embedded as round-half-to-even at two decimals.
-/

/-- One row of the `hist` price table: a daily bar with its `Open` and
`Close` columns (the other OHLC columns are unused).  `Open`/`Close` are
renamed `openPrice`/`closePrice` because `open` is a Lean keyword. -/
structure DailyBar where
  date : ℕ
  openPrice : ℚ
  closePrice : ℚ
deriving DecidableEq

/-- One element of the `data` list built for an earnings date: the dict
with keys `Earnings Date`, `Pre-Earnings Date`, `Post-Earnings Date`,
`Gap %`, `Intraday %`.  As in the source, the two percentages are stored
already rounded to two decimals. -/
structure ObsRow where
  earningsDate : ℕ
  preDate : ℕ
  postDate : ℕ
  gapPct : ℚ
  intradayPct : ℚ
deriving DecidableEq

/-- Round half to even, the rounding mode of Python `round` (numpy scalars
included). -/
def roundHalfEven (q : ℚ) : ℤ :=
  if q - ⌊q⌋ < 1 / 2 then ⌊q⌋
  else if 1 / 2 < q - ⌊q⌋ then ⌊q⌋ + 1
  else if ⌊q⌋ % 2 = 0 then ⌊q⌋ else ⌊q⌋ + 1

/-- `round(q, 2)` of the source: round to two decimal places. -/
def round2 (q : ℚ) : ℚ := (roundHalfEven (q * 100) : ℚ) / 100

/-- Body of the per-earnings-date loop, `src/main.py` lines 53-84.
`prior_dates = hist.index[hist.index <= ed]` keeps index order, so
`prior_dates[-1]` is the last element of the filtered list; symmetrically
`next_dates[0]` is the first bar strictly after `ed`.  If either filter is
empty the event is skipped (`continue`).  Otherwise a row is appended with
the gap and intraday percentages rounded to two decimals.

On zero divisors (`pre_close = 0` or `post_open = 0`) numpy float division
emits a RuntimeWarning and yields inf or nan; it does not raise, so the
`except ...: continue` branch of the source is unreachable for in-range
data and the row is appended regardless.  The embedding mirrors that by
being total; Lean rationals give `q / 0 = 0`, so at a zero divisor only
the presence of the row, never its stored value, models the source. -/
def alignOne (bars : List DailyBar) (ed : ℕ) : Option ObsRow :=
  match (bars.filter (fun b => decide (b.date ≤ ed))).getLast?,
        (bars.filter (fun b => decide (ed < b.date))).head? with
  | some pre, some post =>
      some { earningsDate := ed
             preDate := pre.date
             postDate := post.date
             gapPct := round2 ((post.openPrice - pre.closePrice) / pre.closePrice * 100)
             intradayPct := round2 ((post.closePrice - post.openPrice) / post.openPrice * 100) }
  | _, _ => none

/-- The `data` list: the loop over `earnings.index`, skipped events
producing no row. -/
def observations (events : List ℕ) (bars : List DailyBar) : List ObsRow :=
  events.filterMap (alignOne bars)

/-- Arithmetic mean of a series (`Series.mean`). -/
def mean (xs : List ℚ) : ℚ := xs.sum / xs.length

/-- Sum of squared deviations from the mean of a series. -/
def devSq (xs : List ℚ) : ℚ := (xs.map (fun x => (x - mean xs) ^ 2)).sum

/-- Sum of products of paired deviations (the covariance numerator). -/
def codev (xs ys : List ℚ) : ℚ :=
  ((xs.zip ys).map (fun p => (p.1 - mean xs) * (p.2 - mean ys))).sum

/-- Pearson correlation, the semantics of
`df[Gap %].corr(df[Intraday %])` at line 97: r = codev / sqrt(devSq xs *
devSq ys).  Since square roots leave ℚ, a defined value is represented by
the pair (numerator, squared denominator); the result is `none` exactly
when the denominator vanishes, which is when pandas produces NaN (a 0/0 or
x/0 in float arithmetic) for short or constant series. -/
def correlation (xs ys : List ℚ) : Option (ℚ × ℚ) :=
  if devSq xs * devSq ys = 0 then none
  else some (codev xs ys, devSq xs * devSq ys)

/-- Population variance of a series, the sense in which the spec says
"zero variance". -/
def variance (xs : List ℚ) : ℚ := devSq xs / xs.length

/-- `np.sign` on a (finite) value. -/
def npSign (q : ℚ) : ℚ := if 0 < q then 1 else if q < 0 then -1 else 0

/-- `non_zero_df = df[df[Gap %] != 0]` at line 98. -/
def nonZeroRows (rows : List ObsRow) : List ObsRow :=
  rows.filter (fun r => decide (r.gapPct ≠ 0))

/-- The rows of `non_zero_df` on which
`np.sign(Gap %) == np.sign(Intraday %)` holds. -/
def sameDirRows (rows : List ObsRow) : List ObsRow :=
  (nonZeroRows rows).filter (fun r => decide (npSign r.gapPct = npSign r.intradayPct))

/-- `same_direction_pct`, lines 98-100: the mean of the boolean sign
comparison over `non_zero_df` times 100, or 0 when `non_zero_df` is
empty. -/
def sameDirectionPct (rows : List ObsRow) : ℚ :=
  if nonZeroRows rows = [] then 0
  else ((sameDirRows rows).length : ℚ) / (nonZeroRows rows).length * 100

/-- Whether `correlation > 0` as Python evaluates it at line 112: for a
defined value r = num / sqrt(denSq) with denSq > 0, `r > 0` iff
`0 < num`; a NaN comparison is False. -/
def corrPositive (c : Option (ℚ × ℚ)) : Bool :=
  match c with
  | some p => decide (0 < p.1)
  | none => false

/-- The interpretation block, lines 112-116: one branch on
`correlation > 0`, every other case falls to the warning message. -/
def interpretationMsg (c : Option (ℚ × ℚ)) : String :=
  if corrPositive c then
    "Positive correlation detected, suggesting potential post-earnings drift in the same direction as the overnight gap."
  else
    "No positive correlation found."

/-- The value the Analyze handler derives from its two inputs. -/
structure AnalysisResult where
  rows : List ObsRow
  correlation : Option (ℚ × ℚ)
  sameDirectionPct : ℚ
deriving DecidableEq

/-- The analysis pipeline of the Analyze handler, lines 50-100: build the
observation rows, stop with an error (`none`) when `df` is empty, and
otherwise compute the two aggregates from the stored (rounded)
columns. -/
def analyze (events : List ℕ) (bars : List DailyBar) : Option AnalysisResult :=
  let rows := observations events bars
  if rows = [] then none
  else some { rows := rows
              correlation := correlation (rows.map ObsRow.gapPct) (rows.map ObsRow.intradayPct)
              sameDirectionPct := sameDirectionPct rows }

/-- Modelled from the spec (section 3) for the refinement claim about
rounding: the unrounded per-observation metrics,
gapPct = (postOpen - preClose) / preClose x 100 and
intradayPct = (postClose - postOpen) / postOpen x 100, produced by the
same aligner. -/
def specUnroundedObs (bars : List DailyBar) (ed : ℕ) : Option ObsRow :=
  match (bars.filter (fun b => decide (b.date ≤ ed))).getLast?,
        (bars.filter (fun b => decide (ed < b.date))).head? with
  | some pre, some post =>
      some { earningsDate := ed
             preDate := pre.date
             postDate := post.date
             gapPct := (post.openPrice - pre.closePrice) / pre.closePrice * 100
             intradayPct := (post.closePrice - post.openPrice) / post.openPrice * 100 }
  | _, _ => none

/-- Modelled from the spec for the refinement claim about rounding: the
observation list carrying the unrounded section-3 metrics. -/
def specObservations (events : List ℕ) (bars : List DailyBar) : List ObsRow :=
  events.filterMap (specUnroundedObs bars)

/-- Round the two displayed percentages of a row to two decimals. -/
def roundRow (r : ObsRow) : ObsRow :=
  { r with gapPct := round2 r.gapPct, intradayPct := round2 r.intradayPct }

/-- Bars used by the rounding counterexample: the raw gap percentage is
1/1000 and the raw intraday percentage is 100/100001, both positive and
both rounding to 0.00. -/
def c5Bars : List DailyBar :=
  [{ date := 1, openPrice := 100, closePrice := 100000 },
   { date := 2, openPrice := 100001, closePrice := 100002 }]

/-- In a list of bars with strictly increasing dates, the last element
bounds every date from above. -/
theorem date_le_of_getLast? {l : List DailyBar}
    (hs : l.Pairwise (fun a b => a.date < b.date)) {p : DailyBar}
    (hp : l.getLast? = some p) : ∀ x ∈ l, x.date ≤ p.date := by
  induction l with
  | nil => simp at hp
  | cons a t ih =>
    cases t with
    | nil =>
      simp only [List.getLast?_singleton, Option.some.injEq] at hp
      subst hp
      simp
    | cons b t2 =>
      rw [List.getLast?_cons_cons] at hp
      intro x hx
      rcases List.mem_cons.mp hx with rfl | hx
      · exact le_of_lt ((List.pairwise_cons.mp hs).1 p (List.mem_of_mem_getLast? hp))
      · exact ih (List.pairwise_cons.mp hs).2 hp x hx

/-- In a list of bars with strictly increasing dates, the head bounds every
date from below. -/
theorem date_ge_of_head? {l : List DailyBar}
    (hs : l.Pairwise (fun a b => a.date < b.date)) {p : DailyBar}
    (hp : l.head? = some p) : ∀ x ∈ l, p.date ≤ x.date := by
  cases l with
  | nil => simp at hp
  | cons a t =>
    simp only [List.head?_cons, Option.some.injEq] at hp
    subst hp
    intro x hx
    rcases List.mem_cons.mp hx with rfl | hx
    · exact le_rfl
    · exact le_of_lt ((List.pairwise_cons.mp hs).1 x hx)

/-- C2: for a date-ordered bar sequence with unique dates and an earnings
date that has a bar on or before it and a bar after it, the aligner
produces an observation whose preDate is the latest bar date at most the
earnings date and whose postDate is the earliest bar date after it, so
preDate ≤ earningsDate < postDate. -/
theorem aligner_pre_post_invariant (bars : List DailyBar) (ed : ℕ)
    (hs : bars.Pairwise (fun a b => a.date < b.date))
    (hpre : ∃ b ∈ bars, b.date ≤ ed) (hpost : ∃ b ∈ bars, ed < b.date) :
    ∃ row, alignOne bars ed = some row ∧
      row.earningsDate = ed ∧
      row.preDate ≤ ed ∧ ed < row.postDate ∧
      (∃ b ∈ bars, b.date = row.preDate) ∧
      (∃ b ∈ bars, b.date = row.postDate) ∧
      (∀ b ∈ bars, b.date ≤ ed → b.date ≤ row.preDate) ∧
      (∀ b ∈ bars, ed < b.date → row.postDate ≤ b.date) := by
  obtain ⟨b1, hb1, hb1le⟩ := hpre
  obtain ⟨b2, hb2, hb2gt⟩ := hpost
  have h1ne : bars.filter (fun b => decide (b.date ≤ ed)) ≠ [] :=
    List.ne_nil_of_mem (List.mem_filter.mpr ⟨hb1, by simpa using hb1le⟩)
  have h2ne : bars.filter (fun b => decide (ed < b.date)) ≠ [] :=
    List.ne_nil_of_mem (List.mem_filter.mpr ⟨hb2, by simpa using hb2gt⟩)
  obtain ⟨pre, hpre'⟩ := Option.isSome_iff_exists.mp (List.getLast?_isSome.mpr h1ne)
  obtain ⟨post, hpost'⟩ := Option.isSome_iff_exists.mp (List.head?_isSome.mpr h2ne)
  have hpremem := List.mem_filter.mp (List.mem_of_mem_getLast? hpre')
  have hpostmem := List.mem_filter.mp (List.mem_of_mem_head? hpost')
  have halign : alignOne bars ed = some
      { earningsDate := ed, preDate := pre.date, postDate := post.date,
        gapPct := round2 ((post.openPrice - pre.closePrice) / pre.closePrice * 100),
        intradayPct := round2 ((post.closePrice - post.openPrice) / post.openPrice * 100) } := by
    unfold alignOne
    rw [hpre', hpost']
  refine ⟨_, halign, rfl, by simpa using hpremem.2, by simpa using hpostmem.2,
    ⟨pre, hpremem.1, rfl⟩, ⟨post, hpostmem.1, rfl⟩, ?_, ?_⟩
  · intro b hb hble
    exact date_le_of_getLast? (hs.filter _) hpre' b
      (List.mem_filter.mpr ⟨hb, by simpa using hble⟩)
  · intro b hb hbgt
    exact date_ge_of_head? (hs.filter _) hpost' b
      (List.mem_filter.mpr ⟨hb, by simpa using hbgt⟩)

/-- Witness for the aligner invariant at a concrete two-bar input. -/
theorem aligner_pre_post_invariant_witness :
    ∃ row, alignOne [⟨1,100,102⟩, ⟨2,103,101⟩] 1 = some row ∧
      row.earningsDate = 1 ∧
      row.preDate ≤ 1 ∧ 1 < row.postDate ∧
      (∃ b ∈ [(⟨1,100,102⟩ : DailyBar), ⟨2,103,101⟩], b.date = row.preDate) ∧
      (∃ b ∈ [(⟨1,100,102⟩ : DailyBar), ⟨2,103,101⟩], b.date = row.postDate) ∧
      (∀ b ∈ [(⟨1,100,102⟩ : DailyBar), ⟨2,103,101⟩], b.date ≤ 1 → b.date ≤ row.preDate) ∧
      (∀ b ∈ [(⟨1,100,102⟩ : DailyBar), ⟨2,103,101⟩], 1 < b.date → row.postDate ≤ b.date) :=
  aligner_pre_post_invariant [⟨1,100,102⟩, ⟨2,103,101⟩] 1
    (by constructor
        · intro b hb
          rcases List.mem_cons.mp hb with rfl | hb
          · exact Nat.one_lt_two
          · simp at hb
        · exact List.pairwise_singleton _ _)
    ⟨⟨1,100,102⟩, List.mem_cons_self _ _, le_refl 1⟩
    ⟨⟨2,103,101⟩, List.mem_cons.mpr (Or.inr (List.mem_cons_self _ _)), Nat.one_lt_two⟩

/-- C7: when no bar lies on or before the earnings date, or no bar lies
after it, the aligner yields nothing for that event and the observation
list over any surrounding events is as if the event were absent. -/
theorem skipped_event_produces_nothing (bars : List DailyBar) (ed : ℕ)
    (h : (∀ b ∈ bars, ¬ b.date ≤ ed) ∨ (∀ b ∈ bars, ¬ ed < b.date)) :
    alignOne bars ed = none ∧
    ∀ evs1 evs2 : List ℕ,
      observations (evs1 ++ ed :: evs2) bars = observations (evs1 ++ evs2) bars := by
  have hnone : alignOne bars ed = none := by
    rcases h with h | h
    · have hfil : bars.filter (fun b => decide (b.date ≤ ed)) = [] :=
        List.filter_eq_nil_iff.mpr (by simpa using h)
      unfold alignOne
      rw [hfil]
      rfl
    · have hfil : bars.filter (fun b => decide (ed < b.date)) = [] :=
        List.filter_eq_nil_iff.mpr (by simpa using h)
      unfold alignOne
      rw [hfil]
      cases hg : (bars.filter (fun b => decide (b.date ≤ ed))).getLast? <;> rfl
  refine ⟨hnone, fun evs1 evs2 => ?_⟩
  unfold observations
  rw [List.filterMap_append, List.filterMap_append, List.filterMap_cons, hnone]

/-- Witness for event skipping: a single bar before the earnings date and
no bar after it. -/
theorem skipped_event_produces_nothing_witness :
    alignOne [⟨1,100,102⟩] 2 = none ∧
    observations ([3] ++ 2 :: [4]) [⟨1,100,102⟩] = observations ([3] ++ [4]) [⟨1,100,102⟩] := by
  have h := skipped_event_produces_nothing [⟨1,100,102⟩] 2
    (Or.inr (by
      intro b hb
      rcases List.mem_cons.mp hb with rfl | hb
      · simp
      · simp at hb))
  exact ⟨h.1, h.2 [3] [4]⟩

/-- For a non-zero first argument, equality of numpy signs is the same as
the two values being both positive or both negative. -/
theorem npSign_eq_iff {a b : ℚ} (ha : a ≠ 0) :
    npSign a = npSign b ↔ (0 < a ∧ 0 < b) ∨ (a < 0 ∧ b < 0) := by
  unfold npSign
  rcases ha.lt_or_lt with hneg | hpos
  · rw [if_neg (not_lt.mpr hneg.le), if_pos hneg]
    rcases lt_trichotomy 0 b with hb | hb | hb
    · rw [if_pos hb]
      constructor
      · intro h; norm_num at h
      · intro h
        rcases h with ⟨h1, _⟩ | ⟨_, h2⟩
        · exact absurd h1 (not_lt.mpr hneg.le)
        · exact absurd hb (not_lt.mpr h2.le)
    · rw [if_neg (hb ▸ lt_irrefl 0), if_neg (hb ▸ lt_irrefl 0)]
      constructor
      · intro h; norm_num at h
      · intro h
        rcases h with ⟨h1, _⟩ | ⟨_, h2⟩
        · exact absurd h1 (not_lt.mpr hneg.le)
        · exact absurd h2 (hb ▸ lt_irrefl 0)
    · rw [if_neg (not_lt.mpr hb.le), if_pos hb]
      simp [hneg, hb]
  · rw [if_pos hpos]
    rcases lt_trichotomy 0 b with hb | hb | hb
    · rw [if_pos hb]; simp [hpos, hb]
    · rw [if_neg (hb ▸ lt_irrefl 0), if_neg (hb ▸ lt_irrefl 0)]
      constructor
      · intro h; norm_num at h
      · intro h
        rcases h with ⟨_, h2⟩ | ⟨h1, _⟩
        · exact absurd h2 (hb ▸ lt_irrefl 0)
        · exact absurd h1 (not_lt.mpr hpos.le)
    · rw [if_neg (not_lt.mpr hb.le), if_pos hb]
      constructor
      · intro h; norm_num at h
      · intro h
        rcases h with ⟨_, h2⟩ | ⟨h1, _⟩
        · exact absurd hb (not_lt.mpr h2.le)
        · exact absurd h1 (not_lt.mpr hpos.le)

/-- C3: restricted to the rows with non-zero gap percentage, the
same-direction ratio is 100 times the fraction of rows whose gap and
intraday percentages share a sign; it lies in [0, 100] whenever that set
is non-empty and is exactly 0 when the set is empty. -/
theorem sameDirection_formula_and_bounds (rows : List ObsRow) :
    (nonZeroRows rows ≠ [] →
      sameDirectionPct rows =
        100 * (((nonZeroRows rows).countP (fun r =>
            decide ((0 < r.gapPct ∧ 0 < r.intradayPct) ∨
              (r.gapPct < 0 ∧ r.intradayPct < 0))) : ℚ) / (nonZeroRows rows).length) ∧
      0 ≤ sameDirectionPct rows ∧ sameDirectionPct rows ≤ 100) ∧
    (nonZeroRows rows = [] → sameDirectionPct rows = 0) := by
  constructor
  · intro hne
    have hcount : (sameDirRows rows).length =
        (nonZeroRows rows).countP (fun r =>
          decide ((0 < r.gapPct ∧ 0 < r.intradayPct) ∨
            (r.gapPct < 0 ∧ r.intradayPct < 0))) := by
      simp only [sameDirRows, ← List.countP_eq_length_filter]
      refine List.countP_congr (fun r hr => ?_)
      have hr0 : r.gapPct ≠ 0 := by simpa using (List.mem_filter.mp hr).2
      simp only [decide_eq_true_eq]
      exact npSign_eq_iff hr0
    have hlenpos : (0 : ℚ) < (nonZeroRows rows).length := by
      exact_mod_cast List.length_pos.mpr hne
    have hle : ((sameDirRows rows).length : ℚ) ≤ ((nonZeroRows rows).length : ℚ) := by
      have := List.length_filter_le
        (fun r => decide (npSign r.gapPct = npSign r.intradayPct)) (nonZeroRows rows)
      simp only [sameDirRows]
      exact_mod_cast this
    refine ⟨?_, ?_, ?_⟩
    · simp only [sameDirectionPct, if_neg hne, hcount]
      ring
    · simp only [sameDirectionPct, if_neg hne]
      positivity
    · simp only [sameDirectionPct, if_neg hne]
      have h1 : ((sameDirRows rows).length : ℚ) / (nonZeroRows rows).length ≤ 1 :=
        (div_le_one hlenpos).mpr hle
      calc ((sameDirRows rows).length : ℚ) / (nonZeroRows rows).length * 100
          ≤ 1 * 100 := mul_le_mul_of_nonneg_right h1 (by norm_num)
        _ = 100 := one_mul 100
  · intro he
    simp only [sameDirectionPct, if_pos he]

/-- Witness for the ratio bounds at a one-row input with equal signs. -/
theorem sameDirection_formula_and_bounds_witness :
    0 ≤ sameDirectionPct [⟨1, 1, 2, 1, 1⟩] ∧ sameDirectionPct [⟨1, 1, 2, 1, 1⟩] ≤ 100 := by
  have hne : nonZeroRows [(⟨1, 1, 2, 1, 1⟩ : ObsRow)] ≠ [] := by
    norm_num [nonZeroRows, List.filter]
  have h := (sameDirection_formula_and_bounds [⟨1, 1, 2, 1, 1⟩]).1 hne
  exact ⟨h.2.1, h.2.2⟩

/-- C10: a row with non-zero gap percentage and intraday percentage
exactly 0 belongs to the non-zero-gap (denominator) set and is not counted
as same-direction, since the sign of 0 differs from the sign of any
non-zero gap. -/
theorem zero_intraday_counted_against (r : ObsRow) (rows : List ObsRow)
    (hmem : r ∈ rows) (hgap : r.gapPct ≠ 0) (hintr : r.intradayPct = 0) :
    r ∈ nonZeroRows rows ∧ r ∉ sameDirRows rows := by
  have h1 : r ∈ nonZeroRows rows := List.mem_filter.mpr ⟨hmem, by simpa using hgap⟩
  refine ⟨h1, fun hc => ?_⟩
  have h2 : npSign r.gapPct = npSign r.intradayPct := by
    simpa using (List.mem_filter.mp hc).2
  rw [hintr] at h2
  have h0 : npSign 0 = 0 := by norm_num [npSign]
  rw [h0] at h2
  rcases hgap.lt_or_lt with h | h
  · have hs : npSign r.gapPct = -1 := by
      simp only [npSign, if_neg (not_lt.mpr h.le), if_pos h]
    rw [hs] at h2
    norm_num at h2
  · have hs : npSign r.gapPct = 1 := by
      simp only [npSign, if_pos h]
    rw [hs] at h2
    norm_num at h2

/-- Witness: a single row with gap percentage 1 and intraday percentage
0. -/
theorem zero_intraday_counted_against_witness :
    (⟨1, 1, 2, 1, 0⟩ : ObsRow) ∈ nonZeroRows [⟨1, 1, 2, 1, 0⟩] ∧
    (⟨1, 1, 2, 1, 0⟩ : ObsRow) ∉ sameDirRows [⟨1, 1, 2, 1, 0⟩] :=
  zero_intraday_counted_against ⟨1, 1, 2, 1, 0⟩ [⟨1, 1, 2, 1, 0⟩]
    (List.mem_singleton.mpr rfl) (by norm_num) rfl

/-- The empty series has zero squared deviation. -/
theorem devSq_nil : devSq [] = 0 := rfl

/-- A one-point series has zero squared deviation. -/
theorem devSq_singleton (x : ℚ) : devSq [x] = 0 := by
  simp [devSq, mean]

/-- For a non-empty series, vanishing variance is the same as vanishing
squared deviation. -/
theorem variance_eq_zero_iff {xs : List ℚ} (h : xs ≠ []) :
    variance xs = 0 ↔ devSq xs = 0 := by
  have hlen : (xs.length : ℚ) ≠ 0 :=
    Nat.cast_ne_zero.mpr (List.length_pos.mpr h).ne'
  rw [variance, div_eq_zero_iff]
  simp [hlen]

/-- C4: the aggregate correlation of the gap and intraday columns is NaN
(none), with no failure, exactly when there are fewer than two rows or one
of the two series has zero variance. -/
theorem correlation_nan_iff (rows : List ObsRow) :
    correlation (rows.map ObsRow.gapPct) (rows.map ObsRow.intradayPct) = none ↔
      (rows.length < 2 ∨
        variance (rows.map ObsRow.gapPct) = 0 ∨
        variance (rows.map ObsRow.intradayPct) = 0) := by
  have hcor : ∀ xs ys : List ℚ,
      (correlation xs ys = none ↔ devSq xs = 0 ∨ devSq ys = 0) := by
    intro xs ys
    rw [correlation]
    split_ifs with h
    · simpa [mul_eq_zero] using h
    · rw [mul_eq_zero] at h
      simp [h]
  match rows with
  | [] => simp [hcor, devSq_nil]
  | [a] => simp [hcor, devSq_singleton]
  | a :: b :: t =>
    have hlen : ¬ (a :: b :: t).length < 2 := by
      simp [List.length_cons]
    have hx : (a :: b :: t).map ObsRow.gapPct ≠ [] := by simp
    have hy : (a :: b :: t).map ObsRow.intradayPct ≠ [] := by simp
    rw [hcor, variance_eq_zero_iff hx, variance_eq_zero_iff hy]
    simp [hlen]

/-- Each stored row is exactly the unrounded section-3 observation with its
two percentages rounded to two decimals. -/
theorem alignOne_eq_roundRow_spec (bars : List DailyBar) (ed : ℕ) :
    alignOne bars ed = (specUnroundedObs bars ed).map roundRow := by
  unfold alignOne specUnroundedObs
  cases (bars.filter (fun b => decide (b.date ≤ ed))).getLast? with
  | none => rfl
  | some pre =>
    cases (bars.filter (fun b => decide (ed < b.date))).head? with
    | none => rfl
    | some post => rfl

/-- C5 amended: the aggregate correlation and the same-direction ratio are
computed over the rounded (two-decimal) gap and intraday percentages, that
is, over the section-3 metrics after rounding, not over the unrounded
values. -/
theorem aggregates_computed_over_rounded (events : List ℕ) (bars : List DailyBar) :
    observations events bars = (specObservations events bars).map roundRow ∧
    sameDirectionPct (observations events bars) =
      sameDirectionPct ((specObservations events bars).map roundRow) ∧
    correlation ((observations events bars).map ObsRow.gapPct)
        ((observations events bars).map ObsRow.intradayPct) =
      correlation (((specObservations events bars).map roundRow).map ObsRow.gapPct)
        (((specObservations events bars).map roundRow).map ObsRow.intradayPct) := by
  have h : observations events bars = (specObservations events bars).map roundRow := by
    unfold observations specObservations
    rw [List.map_filterMap]
    exact congrArg events.filterMap (funext fun ed => alignOne_eq_roundRow_spec bars ed)
  exact ⟨h, by rw [h], by rw [h]⟩

/-- C5 counterexample: with one observation whose raw gap percentage is
1/1000 and raw intraday percentage is 100/100001 (both positive, both
rounding to 0.00), the pipeline reports a same-direction ratio of 0 while
the same aggregate over the unrounded section-3 metrics is 100. -/
theorem rounding_changes_aggregates :
    sameDirectionPct (observations [1] c5Bars) = 0 ∧
    sameDirectionPct (specObservations [1] c5Bars) = 100 ∧
    sameDirectionPct (observations [1] c5Bars) ≠
      sameDirectionPct (specObservations [1] c5Bars) := by
  have h1 : sameDirectionPct (observations [1] c5Bars) = 0 := by
    norm_num [sameDirectionPct, nonZeroRows, sameDirRows, observations, alignOne, c5Bars,
      round2, roundHalfEven, npSign, List.filter, List.getLast?, List.getLast, List.head?,
      List.filterMap]
  have h2 : sameDirectionPct (specObservations [1] c5Bars) = 100 := by
    norm_num [sameDirectionPct, nonZeroRows, sameDirRows, specObservations, specUnroundedObs,
      c5Bars, npSign, List.filter, List.getLast?, List.getLast, List.head?, List.filterMap]
  refine ⟨h1, h2, ?_⟩
  rw [h1, h2]
  norm_num

/-- C1: at an input whose first event has preClose = 0 the computed row is
still appended to the data list, and the later event is processed as
usual: numpy float division by zero emits a warning and yields inf rather
than raising, so the except-continue branch never fires and nothing is
excluded. -/
theorem zero_preclose_observation_included :
    (observations [1, 2] [⟨1, 100, 0⟩, ⟨2, 103, 101⟩, ⟨3, 99, 105⟩]).map ObsRow.earningsDate
      = [1, 2] := by
  decide

/-- C6: for bars (1/1, open 100, close 102), (1/2, open 103, close 101),
(1/3, open 99, close 105) and earnings date 1/1, the aligner picks pre =
1/1 (close 102) and post = 1/2 (open 103, close 101), and the stored
metrics are the section-3 formula values rounded to two decimals:
gapPct = 0.98 and intradayPct = -1.94. -/
theorem scenario_first_day_earnings :
    alignOne [⟨1, 100, 102⟩, ⟨2, 103, 101⟩, ⟨3, 99, 105⟩] 1 =
      some { earningsDate := 1, preDate := 1, postDate := 2,
             gapPct := round2 ((103 - 102) / 102 * 100),
             intradayPct := round2 ((101 - 103) / 103 * 100) } ∧
    round2 ((103 - 102) / 102 * 100) = 98 / 100 ∧
    round2 ((101 - 103) / 103 * 100) = -(194 / 100) := by
  refine ⟨?_, ?_, ?_⟩
  · norm_num [alignOne, List.filter, List.getLast?, List.getLast, List.head?]
  · norm_num [round2, roundHalfEven]
  · norm_num [round2, roundHalfEven]

/-- C8: the interpretation has exactly two branches keyed on
correlation > 0: every correlation, defined or NaN, yields one of the two
messages, and a zero, negative or NaN correlation always yields the
no-positive-correlation message, never the positive-drift one. -/
theorem interpretation_two_branches (c : Option (ℚ × ℚ)) :
    (interpretationMsg c =
        "Positive correlation detected, suggesting potential post-earnings drift in the same direction as the overnight gap." ∨
      interpretationMsg c = "No positive correlation found.") ∧
    ((c = none ∨ ∃ p, c = some p ∧ p.1 ≤ 0) →
      interpretationMsg c = "No positive correlation found." ∧
      interpretationMsg c ≠
        "Positive correlation detected, suggesting potential post-earnings drift in the same direction as the overnight gap.") := by
  have hmsg : ("No positive correlation found." : String) ≠
      "Positive correlation detected, suggesting potential post-earnings drift in the same direction as the overnight gap." := by
    decide
  cases c with
  | none =>
    exact ⟨Or.inr rfl, fun _ => ⟨rfl, hmsg⟩⟩
  | some p =>
    by_cases hp : 0 < p.1
    · have h : interpretationMsg (some p) =
          "Positive correlation detected, suggesting potential post-earnings drift in the same direction as the overnight gap." := by
        simp [interpretationMsg, corrPositive, hp]
      refine ⟨Or.inl h, fun hc => ?_⟩
      rcases hc with hc | ⟨q, hq, hle⟩
      · exact absurd hc (Option.some_ne_none p)
      · have hpq := Option.some.inj hq
        subst hpq
        exact absurd hp (not_lt.mpr hle)
    · have h : interpretationMsg (some p) = "No positive correlation found." := by
        simp [interpretationMsg, corrPositive, hp]
      exact ⟨Or.inr h, fun _ => ⟨h, h ▸ hmsg⟩⟩

/-- Witness: a zero correlation numerator falls to the warning branch. -/
theorem interpretation_two_branches_witness :
    interpretationMsg (some ((0 : ℚ), (1 : ℚ))) = "No positive correlation found." :=
  ((interpretation_two_branches (some ((0 : ℚ), (1 : ℚ)))).2
    (Or.inr ⟨((0 : ℚ), (1 : ℚ)), rfl, le_refl 0⟩)).1

/-- C9: the analysis pipeline is a pure function of the earnings events
and the bar sequence: identical inputs give identical results, including
identical observations and identical aggregates; no other state enters the
computation. -/
theorem analyze_pure (e1 e2 : List ℕ) (b1 b2 : List DailyBar)
    (he : e1 = e2) (hb : b1 = b2) :
    analyze e1 b1 = analyze e2 b2 ∧
    observations e1 b1 = observations e2 b2 ∧
    sameDirectionPct (observations e1 b1) = sameDirectionPct (observations e2 b2) ∧
    correlation ((observations e1 b1).map ObsRow.gapPct)
        ((observations e1 b1).map ObsRow.intradayPct) =
      correlation ((observations e2 b2).map ObsRow.gapPct)
        ((observations e2 b2).map ObsRow.intradayPct) := by
  subst he
  subst hb
  exact ⟨rfl, rfl, rfl, rfl⟩

/-- Witness: running the pipeline twice on the same concrete input. -/
theorem analyze_pure_witness :
    analyze [1] [⟨1, 100, 102⟩, ⟨2, 103, 101⟩] =
      analyze [1] [⟨1, 100, 102⟩, ⟨2, 103, 101⟩] :=
  (analyze_pure [1] [1] [⟨1, 100, 102⟩, ⟨2, 103, 101⟩] [⟨1, 100, 102⟩, ⟨2, 103, 101⟩]
    rfl rfl).1
